import Mathlib

/-
Shallow embedding of the z17-randomizer core (crate `randomizer`):
the logic-tier evaluator (src/logic.rs), the progress model
(src/progress.rs), the layout (src/lib.rs) and subregion identity
(src/regions/mod.rs), together with proofs of the specification
claims about them.
-/

set_option maxRecDepth 4000

/-- Modelled from the spec: the `LogicMode` enum (src/logic_mode.rs is not
present in the sources). Its variants are exactly those matched on in
`Logic::can_access` (src/logic.rs lines 50-56) and listed by the spec for
`logic.mode`: Normal, Hard, GlitchBasic, GlitchAdvanced, GlitchHell, NoLogic. -/
inductive LogicMode
  | Normal
  | Hard
  | GlitchBasic
  | GlitchAdvanced
  | GlitchHell
  | NoLogic
deriving DecidableEq, Repr

/-- Modelled from the spec: the `FillerItem` capability alphabet
(src/filler_item.rs is not present in the sources). The constructors are
exactly the tokens referenced by src/progress.rs. -/
inductive FillerItem
  | Bow01 | Bow02
  | Boomerang01 | Boomerang02
  | Hookshot01 | Hookshot02
  | Bombs01 | Bombs02
  | FireRod01 | FireRod02
  | IceRod01 | IceRod02
  | Hammer01 | Hammer02
  | Sword01 | Sword02 | Sword03 | Sword04
  | Glove01 | Glove02
  | Lamp01 | Lamp02
  | Bottle01 | Bottle02 | Bottle03 | Bottle04 | Bottle05
  | SandRod01 | SandRod02
  | TornadoRod01 | TornadoRod02
  | RaviosBracelet01 | RaviosBracelet02
  | Bell | StaminaScroll | BowOfLight | PegasusBoots | Flippers
  | HylianShield | SmoothGem | LetterInABottle | PremiumMilk
  | GreatSpin | GoldBee | ScootFruit
  | OreYellow | OreGreen | OreBlue | OreRed
  | HyruleSanctuaryKey | LoruleSanctuaryKey
  | EasternKeySmall01 | EasternKeySmall02 | EasternKeyBig
  | GalesKeySmall01 | GalesKeySmall02 | GalesKeySmall03 | GalesKeySmall04
  | GalesKeyBig
  | HeraKeySmall01 | HeraKeySmall02 | HeraKeyBig
  | DarkKeySmall01 | DarkKeySmall02 | DarkKeySmall03 | DarkKeySmall04
  | DarkKeyBig
  | SwampKeySmall01 | SwampKeySmall02 | SwampKeySmall03 | SwampKeySmall04
  | SwampKeyBig
  | SkullKeySmall01 | SkullKeySmall02 | SkullKeySmall03 | SkullKeyBig
  | ThievesKeySmall | ThievesKeyBig
  | IceKeySmall01 | IceKeySmall02 | IceKeySmall03 | IceKeyBig
  | DesertKeySmall01 | DesertKeySmall02 | DesertKeySmall03
  | DesertKeySmall04 | DesertKeySmall05 | DesertKeyBig
  | TurtleKeySmall01 | TurtleKeySmall02 | TurtleKeySmall03 | TurtleKeyBig
  | LoruleCastleKeySmall01 | LoruleCastleKeySmall02 | LoruleCastleKeySmall03
  | LoruleCastleKeySmall04 | LoruleCastleKeySmall05
  | StylishWomansHouseOpen | SkullEyeRight | SkullEyeLeft | BigBombFlower
  | PendantOfCourage | PendantOfWisdom | PendantOfPower
  | SageGulley | SageOren | SageSeres | SageOsfala | SageRosso | SageIrene
  | SageImpa
  | AccessHildaBarrier
deriving DecidableEq, Repr

open FillerItem

/-- The `Progress` struct of src/progress.rs lines 5-8: its only field is
`items: HashSet of FillerItem`, modelled as a `Finset`. (The struct as given
in the sources holds no reference to `Settings`; see the claim about that.) -/
structure Progress where
  items : Finset FillerItem
deriving DecidableEq

namespace Progress

/-- src/progress.rs `Progress::new`: the default (empty) progress. -/
def new : Progress := ⟨∅⟩

/-- src/progress.rs `Progress::add_item`: set insertion. -/
def add_item (p : Progress) (item : FillerItem) : Progress :=
  ⟨insert item p.items⟩

/-- src/progress.rs `Progress::has`: `self.items.contains(&item)`. -/
def has (p : Progress) (item : FillerItem) : Bool :=
  decide (item ∈ p.items)

/-- src/progress.rs `Progress::has_either`. -/
def has_either (p : Progress) (item1 item2 : FillerItem) : Bool :=
  decide (item1 ∈ p.items) || decide (item2 ∈ p.items)

/-- src/progress.rs `Progress::has_both`. -/
def has_both (p : Progress) (item1 item2 : FillerItem) : Bool :=
  decide (item1 ∈ p.items) && decide (item2 ∈ p.items)

/-- src/progress.rs `Progress::has_any`: loop returning true on the first
member item. -/
def has_any (p : Progress) (items : List FillerItem) : Bool :=
  items.any fun item => p.has item

/-- src/progress.rs `Progress::count` lines 57-66: a u8 accumulator summed
over the list (membership counted with multiplicity). The u8 `sum += 1` is
modelled with wrap-around arithmetic modulo 256. -/
def count (p : Progress) (items : List FillerItem) : Nat :=
  items.foldl (fun sum item => if p.has item then (sum + 1) % 256 else sum) 0

/-- src/progress.rs `Progress::has_amount` lines 53-55:
`self.count(items) >= amount` (amount is a u8). -/
def has_amount (p : Progress) (amount : Nat) (items : List FillerItem) : Bool :=
  decide (p.count items ≥ amount)

/-- src/progress.rs `Progress::has_bow`. -/
def has_bow (p : Progress) : Bool := p.has_either Bow01 Bow02

/-- src/progress.rs `Progress::has_boomerang`. -/
def has_boomerang (p : Progress) : Bool := p.has_either Boomerang01 Boomerang02

/-- src/progress.rs `Progress::has_hookshot`. -/
def has_hookshot (p : Progress) : Bool := p.has_either Hookshot01 Hookshot02

/-- src/progress.rs `Progress::has_bombs`. -/
def has_bombs (p : Progress) : Bool := p.has_either Bombs01 Bombs02

/-- src/progress.rs `Progress::has_fire_rod`. -/
def has_fire_rod (p : Progress) : Bool := p.has_either FireRod01 FireRod02

/-- src/progress.rs `Progress::has_ice_rod`. -/
def has_ice_rod (p : Progress) : Bool := p.has_either IceRod01 IceRod02

/-- src/progress.rs `Progress::has_hammer`. -/
def has_hammer (p : Progress) : Bool := p.has_either Hammer01 Hammer02

/-- src/progress.rs `Progress::has_lamp` lines 105-107. -/
def has_lamp (p : Progress) : Bool := p.has_either Lamp01 Lamp02

/-- src/progress.rs `Progress::has_net` lines 121-123: note it consults the
lamp tokens. -/
def has_net (p : Progress) : Bool := p.has_either Lamp01 Lamp02

/-- src/progress.rs `Progress::has_tornado_rod`. -/
def has_tornado_rod (p : Progress) : Bool := p.has_either TornadoRod01 TornadoRod02

/-- src/progress.rs `Progress::has_sword` lines 185-187. -/
def has_sword (p : Progress) : Bool :=
  p.has_any [Sword01, Sword02, Sword03, Sword04]

/-- src/progress.rs `Progress::has_master_sword` lines 189-191. -/
def has_master_sword (p : Progress) : Bool :=
  p.has_amount 2 [Sword01, Sword02, Sword03, Sword04]

/-- src/progress.rs `Progress::can_attack` lines 197-206. -/
def can_attack (p : Progress) : Bool :=
  p.has_any [
    Sword01, Sword02, Sword03, Sword04,
    Bow01, Bow02,
    Bombs01, Bombs02,
    FireRod01, FireRod02,
    IceRod01, IceRod02,
    Hammer01, Hammer02
  ]

/-- src/progress.rs `Progress::can_defeat_margomill` lines 273-281. -/
def can_defeat_margomill (p : Progress) : Bool :=
  p.has_tornado_rod && (
    p.has_sword
      || p.has_bow
      || p.has_bombs
      || p.has_fire_rod
      || p.has_hammer)

end Progress

/-- The `Logic` struct of src/logic.rs lines 17-30: five optional predicate
slots, one per tier. -/
structure Logic where
  normal : Option (Progress → Bool)
  hard : Option (Progress → Bool)
  glitch_basic : Option (Progress → Bool)
  glitch_advanced : Option (Progress → Bool)
  glitch_hell : Option (Progress → Bool)

namespace Logic

/-- src/logic.rs `Logic::new`. -/
def new (normal hard glitch_basic glitch_advanced glitch_hell :
    Option (Progress → Bool)) : Logic :=
  ⟨normal, hard, glitch_basic, glitch_advanced, glitch_hell⟩

/-- The loop body of `Logic::can_access` (src/logic.rs line 58):
`logic.is_some() and (logic.unwrap())(progress)`. -/
def slotPasses (slot : Option (Progress → Bool)) (p : Progress) : Bool :=
  slot.isSome && (match slot with
    | some f => f p
    | none => false)

/-- src/logic.rs `Logic::can_access` lines 47-64. The configured tier is
read in the source as `progress.get_settings().logic.mode`; the `Progress`
struct in src/progress.rs has no settings field or `get_settings` method
(see the claim about that), so the mode is passed here as an explicit
argument. The evaluation itself mirrors the source exactly: per mode, the
vector of slots from `normal` up to the mode's own tier is scanned and the
function returns true on the first present, passing slot; `NoLogic` returns
true immediately. -/
def can_access (l : Logic) (mode : LogicMode) (p : Progress) : Bool :=
  match mode with
  | LogicMode.Normal =>
      [l.normal].any fun slot => slotPasses slot p
  | LogicMode.Hard =>
      [l.normal, l.hard].any fun slot => slotPasses slot p
  | LogicMode.GlitchBasic =>
      [l.normal, l.hard, l.glitch_basic].any fun slot => slotPasses slot p
  | LogicMode.GlitchAdvanced =>
      [l.normal, l.hard, l.glitch_basic, l.glitch_advanced].any
        fun slot => slotPasses slot p
  | LogicMode.GlitchHell =>
      [l.normal, l.hard, l.glitch_basic, l.glitch_advanced, l.glitch_hell].any
        fun slot => slotPasses slot p
  | LogicMode.NoLogic => true

/-- src/logic.rs `accessible`. -/
def accessible : Option (Progress → Bool) := some fun _ => true

/-- src/logic.rs `Logic::free`. -/
def free : Logic :=
  ⟨accessible, accessible, accessible, accessible, accessible⟩

end Logic

/-- Position of each tier in the strict ordering
Normal, Hard, GlitchBasic, GlitchAdvanced, GlitchHell (with NoLogic above
all of them), as used by the spec's evaluation rule. -/
def LogicMode.tierIdx : LogicMode → Nat
  | LogicMode.Normal => 0
  | LogicMode.Hard => 1
  | LogicMode.GlitchBasic => 2
  | LogicMode.GlitchAdvanced => 3
  | LogicMode.GlitchHell => 4
  | LogicMode.NoLogic => 5

/-- The predicate slot of a `Logic` at a given tier index (0 = normal,
…, 4 = glitch_hell). -/
def Logic.slotAt (l : Logic) : Nat → Option (Progress → Bool)
  | 0 => l.normal
  | 1 => l.hard
  | 2 => l.glitch_basic
  | 3 => l.glitch_advanced
  | 4 => l.glitch_hell
  | _ => none

/-- Modelled from the spec: the `Item` enumeration of the external `albw`
crate (its source is not present under src/). The constructors are the
variants referenced by src/lib.rs (`item_to_str`, `ItemExt::is_progression`,
`ItemExt::normalize` and the plando placements); `normalize` treats every
other variant by the identity catch-all, so the proofs below do not depend
on variants that are never named. -/
inductive Item
  | KeySmall | KeyBoss | Compass | HeartContainer | HeartPiece
  | RupeeR | RupeeG | RupeeB | RupeeGold | RupeeSilver | RupeePurple
  | ItemIceRod | ItemIceRodLv2 | ItemRentalIceRod
  | ItemSandRod | ItemSandRodLv2 | ItemRentalSandRod | ItemRentalSandRodFirst
  | ItemTornadeRod | ItemTornadeRodLv2 | ItemRentalTornadeRod
  | ItemBomb | ItemBombLv2 | ItemRentalBomb
  | ItemFireRod | ItemFireRodLv2 | ItemRentalFireRod
  | ItemHookShot | ItemHookShotLv2 | ItemRentalHookShot
  | ItemBoomerang | ItemBoomerangLv2 | ItemRentalBoomerang
  | ItemHammer | ItemHammerLv2 | ItemRentalHammer
  | ItemBow | ItemBowLv2 | ItemRentalBow
  | ItemShield | ItemRentalShield | HyruleShield
  | ItemBottle | ItemStoneBeauty
  | ItemKandelaar | ItemKandelaarLv2
  | ItemSwordLv1 | ItemSwordLv2 | ItemSwordLv3 | ItemSwordLv4 | PackageSword
  | ItemMizukaki
  | RingRental | RingHekiga
  | ItemBell
  | PowerGlove | PowerfulGlove
  | ItemInsectNet | ItemInsectNetLv2
  | Kinsta | BadgeBee | GoldenBeeForSale | HintGlasses
  | LiverBlue | LiverPurple | LiverYellow
  | ClothesBlue | ClothesRed
  | OreYellow | OreGreen | OreBlue | OreRed
  | GanbariPowerUp | GanbariTubo | Pouch | DashBoots | EscapeFruit
  | MessageBottle | MilkMatured | SpecialMove
  | ItemBowLight | Heart | Empty
  | PendantPower | PendantWisdom | PendantCourage
  | SageGulley | SageOren | SageSeres | SageOsfala | SageImpa | SageIrene
  | SageRosso
  | TriforceCourage
  | ItemPotShopRed | ItemPotShopBlue | ItemPotShopPurple | ItemPotShopYellow
deriving DecidableEq, Repr

namespace Item

/-- src/lib.rs `ItemExt::normalize` lines 446-469: rental and duplicate
variants collapse to their canonical item, every sword level collapses to
`ItemSwordLv2`, and all other items are returned unchanged. -/
def normalize : Item → Item
  | PackageSword | ItemSwordLv1 | ItemSwordLv3 | ItemSwordLv4 => ItemSwordLv2
  | ItemRentalIceRod => ItemIceRod
  | ItemRentalSandRod => ItemSandRod
  | ItemRentalTornadeRod => ItemTornadeRod
  | ItemRentalBomb => ItemBomb
  | ItemRentalFireRod => ItemFireRod
  | ItemRentalHookShot => ItemHookShot
  | ItemRentalBoomerang => ItemBoomerang
  | ItemRentalHammer => ItemHammer
  | ItemRentalBow => ItemBow
  | PowerfulGlove => PowerGlove
  | ClothesRed => ClothesBlue
  | RingRental => RingHekiga
  | ItemKandelaarLv2 => ItemKandelaar
  | ItemInsectNetLv2 => ItemInsectNet
  | item => item

end Item

namespace regions

/-- src/regions/mod.rs lines 50-55: the `World` enum. -/
inductive World
  | Hyrule
  | Lorule
  | Dungeons
deriving DecidableEq, Repr

end regions

/-- src/regions/mod.rs lines 7-12: the `Subregion` struct — an identity
triple of region name, world and node id (static strings modelled as
`String`). -/
structure Subregion where
  name : String
  world : regions.World
  id : String
deriving DecidableEq, Repr

namespace Subregion

/-- src/regions/mod.rs lines 36-40, `impl PartialEq for Subregion`:
`self.world == other.world and self.name == other.name and
self.id == other.id`. -/
def eq (a b : Subregion) : Bool :=
  a.world == b.world && a.name == b.name && a.id == b.id

end Subregion

/-- src/lib.rs lines 127-131: the `LocationInfo` struct (a subregion
reference plus a check name). -/
structure LocationInfo where
  subregion : Subregion
  name : String
deriving DecidableEq, Repr

/-- The value type of one region's slot map: a `BTreeMap` from check name to
`Item` (src/lib.rs line 235), modelled as an association list with
insert-replace semantics. -/
def CheckMap := List (String × Item)

/-- `BTreeMap::insert`: replaces the value at an existing key, otherwise
adds the binding. -/
def CheckMap.insert (k : String) (v : Item) : CheckMap → CheckMap
  | [] => [(k, v)]
  | (k', v') :: rest =>
      if k = k' then (k, v) :: rest else (k', v') :: CheckMap.insert k v rest

/-- `BTreeMap::get(...).copied()`. -/
def CheckMap.get (k : String) : CheckMap → Option Item
  | [] => none
  | (k', v') :: rest => if k = k' then some v' else CheckMap.get k rest

/-- src/lib.rs line 235: `type World = LinkedHashMap` from region name to
check map, modelled as an association list (insertion order preserved at
the tail, matching `LinkedHashMap::entry`). -/
def World := List (String × CheckMap)

/-- `LinkedHashMap::get`. -/
def World.get (k : String) : World → Option CheckMap
  | [] => none
  | (k', v') :: rest => if k = k' then some v' else World.get k rest

/-- src/lib.rs `Layout::get_node_mut` composed with the `BTreeMap::insert`
of `Layout::set`: `entry(region).or_insert_with(Default::default)` creates
an empty map at the end when the region is absent, then the item is
inserted under the check name. -/
def World.setIn (region chk : String) (item : Item) : World → World
  | [] => [(region, CheckMap.insert chk item [])]
  | (r, m) :: rest =>
      if region = r then (r, CheckMap.insert chk item m) :: rest
      else (r, m) :: World.setIn region chk item rest

/-- src/lib.rs lines 152-160: the `Layout` struct with its three worlds. -/
structure Layout where
  hyrule : World
  lorule : World
  dungeons : World

namespace Layout

/-- src/lib.rs `Layout::default()`: all three worlds empty. -/
def default : Layout := ⟨[], [], []⟩

/-- src/lib.rs lines 163-169, `Layout::world`. -/
def world (l : Layout) : regions.World → World
  | regions.World.Hyrule => l.hyrule
  | regions.World.Lorule => l.lorule
  | regions.World.Dungeons => l.dungeons

/-- src/lib.rs lines 185-193, `Layout::get`: look the subregion's world up
by region name, then the check map by check name. -/
def get (l : Layout) (location : LocationInfo) : Option Item :=
  (World.get location.subregion.name (l.world location.subregion.world)).bind
    fun region => CheckMap.get location.name region

/-- src/lib.rs lines 195-207, `Layout::set`: insert the normalised item
under the check name in the subregion's region map (creating the region
entry when absent). -/
def set (l : Layout) (location : LocationInfo) (item : Item) : Layout :=
  match location.subregion.world with
  | regions.World.Hyrule =>
      { l with hyrule :=
          World.setIn location.subregion.name location.name item.normalize l.hyrule }
  | regions.World.Lorule =>
      { l with lorule :=
          World.setIn location.subregion.name location.name item.normalize l.lorule }
  | regions.World.Dungeons =>
      { l with dungeons :=
          World.setIn location.subregion.name location.name item.normalize l.dungeons }

end Layout

/-
Helper lemmas (shared; not tied to a single claim).
-/

lemma Logic.slotPasses_iff (slot : Option (Progress → Bool)) (p : Progress) :
    Logic.slotPasses slot p = true ↔ ∃ f, slot = some f ∧ f p = true := by
  cases slot with
  | none => simp [Logic.slotPasses]
  | some f => simp [Logic.slotPasses]

lemma Logic.can_access_iff (l : Logic) (mode : LogicMode) (p : Progress) :
    l.can_access mode p = true ↔
      (mode = LogicMode.NoLogic ∨
        ∃ i, i ≤ mode.tierIdx ∧ ∃ f, l.slotAt i = some f ∧ f p = true) := by
  cases mode with
  | Normal =>
      simp only [Logic.can_access, List.any_eq_true, List.mem_singleton,
        Logic.slotPasses_iff, LogicMode.tierIdx]
      constructor
      · rintro ⟨s, rfl, hf⟩
        exact Or.inr ⟨0, Nat.le_refl 0, hf⟩
      · rintro (h | ⟨i, hi, hf⟩)
        · exact absurd h (by simp)
        · interval_cases i
          exact ⟨l.normal, rfl, hf⟩
  | Hard =>
      simp only [Logic.can_access, List.any_eq_true, List.mem_cons,
        List.mem_singleton, List.not_mem_nil, or_false,
        Logic.slotPasses_iff, LogicMode.tierIdx]
      constructor
      · rintro ⟨s, (rfl | rfl), hf⟩
        · exact Or.inr ⟨0, by omega, hf⟩
        · exact Or.inr ⟨1, by omega, hf⟩
      · rintro (h | ⟨i, hi, hf⟩)
        · exact absurd h (by simp)
        · interval_cases i
          · exact ⟨l.normal, Or.inl rfl, hf⟩
          · exact ⟨l.hard, Or.inr rfl, hf⟩
  | GlitchBasic =>
      simp only [Logic.can_access, List.any_eq_true, List.mem_cons,
        List.mem_singleton, List.not_mem_nil, or_false,
        Logic.slotPasses_iff, LogicMode.tierIdx]
      constructor
      · rintro ⟨s, (rfl | rfl | rfl), hf⟩
        · exact Or.inr ⟨0, by omega, hf⟩
        · exact Or.inr ⟨1, by omega, hf⟩
        · exact Or.inr ⟨2, by omega, hf⟩
      · rintro (h | ⟨i, hi, hf⟩)
        · exact absurd h (by simp)
        · interval_cases i
          · exact ⟨l.normal, Or.inl rfl, hf⟩
          · exact ⟨l.hard, Or.inr (Or.inl rfl), hf⟩
          · exact ⟨l.glitch_basic, Or.inr (Or.inr rfl), hf⟩
  | GlitchAdvanced =>
      simp only [Logic.can_access, List.any_eq_true, List.mem_cons,
        List.mem_singleton, List.not_mem_nil, or_false,
        Logic.slotPasses_iff, LogicMode.tierIdx]
      constructor
      · rintro ⟨s, (rfl | rfl | rfl | rfl), hf⟩
        · exact Or.inr ⟨0, by omega, hf⟩
        · exact Or.inr ⟨1, by omega, hf⟩
        · exact Or.inr ⟨2, by omega, hf⟩
        · exact Or.inr ⟨3, by omega, hf⟩
      · rintro (h | ⟨i, hi, hf⟩)
        · exact absurd h (by simp)
        · interval_cases i
          · exact ⟨l.normal, Or.inl rfl, hf⟩
          · exact ⟨l.hard, Or.inr (Or.inl rfl), hf⟩
          · exact ⟨l.glitch_basic, Or.inr (Or.inr (Or.inl rfl)), hf⟩
          · exact ⟨l.glitch_advanced, Or.inr (Or.inr (Or.inr rfl)), hf⟩
  | GlitchHell =>
      simp only [Logic.can_access, List.any_eq_true, List.mem_cons,
        List.mem_singleton, List.not_mem_nil, or_false,
        Logic.slotPasses_iff, LogicMode.tierIdx]
      constructor
      · rintro ⟨s, (rfl | rfl | rfl | rfl | rfl), hf⟩
        · exact Or.inr ⟨0, by omega, hf⟩
        · exact Or.inr ⟨1, by omega, hf⟩
        · exact Or.inr ⟨2, by omega, hf⟩
        · exact Or.inr ⟨3, by omega, hf⟩
        · exact Or.inr ⟨4, by omega, hf⟩
      · rintro (h | ⟨i, hi, hf⟩)
        · exact absurd h (by simp)
        · interval_cases i
          · exact ⟨l.normal, Or.inl rfl, hf⟩
          · exact ⟨l.hard, Or.inr (Or.inl rfl), hf⟩
          · exact ⟨l.glitch_basic, Or.inr (Or.inr (Or.inl rfl)), hf⟩
          · exact ⟨l.glitch_advanced, Or.inr (Or.inr (Or.inr (Or.inl rfl))), hf⟩
          · exact ⟨l.glitch_hell, Or.inr (Or.inr (Or.inr (Or.inr rfl))), hf⟩
  | NoLogic =>
      simp [Logic.can_access]

lemma LogicMode.tierIdx_five (m : LogicMode) (h : 5 ≤ m.tierIdx) :
    m = LogicMode.NoLogic := by
  cases m <;> simp [LogicMode.tierIdx] at h ⊢

/-- C1: for every Logic L and Progress P, with configured tier T among the
five ordered tiers, can_access is true iff some slot at a tier at most T is
present and passes on P (a None slot never grants access), and NoLogic is
unconditionally true; in particular Logic{normal=None, hard=Some p}
evaluates to false under Normal and to p(P) under Hard. -/
theorem logic_can_access_characterisation :
    ∀ (l : Logic) (mode : LogicMode) (p : Progress),
      (l.can_access mode p = true ↔
        (mode = LogicMode.NoLogic ∨
          ∃ i, i ≤ mode.tierIdx ∧ ∃ f, l.slotAt i = some f ∧ f p = true))
      ∧ (∀ f : Progress → Bool,
          (Logic.new none (some f) none none none).can_access LogicMode.Normal p
            = false
          ∧ (Logic.new none (some f) none none none).can_access LogicMode.Hard p
            = f p) := by
  intro l mode p
  refine ⟨Logic.can_access_iff l mode p, fun f => ⟨rfl, ?_⟩⟩
  simp [Logic.can_access, Logic.slotPasses, Logic.new]

/-- C2: can_access is monotone in the configured tier along the ordering
Normal, Hard, GlitchBasic, GlitchAdvanced, GlitchHell, NoLogic: access at a
tier implies access at every higher tier, and NoLogic always grants
access. -/
theorem logic_can_access_tier_monotone :
    ∀ (l : Logic) (p : Progress) (m m' : LogicMode),
      m.tierIdx ≤ m'.tierIdx →
      l.can_access m p = true → l.can_access m' p = true := by
  intro l p m m' hle h
  rcases (Logic.can_access_iff l m p).mp h with hNo | ⟨i, hi, f, hslot, hf⟩
  · subst hNo
    have : m' = LogicMode.NoLogic :=
      LogicMode.tierIdx_five m' (by simpa [LogicMode.tierIdx] using hle)
    subst this
    rfl
  · exact (Logic.can_access_iff l m' p).mpr
      (Or.inr ⟨i, Nat.le_trans hi hle, f, hslot, hf⟩)

/-- A concrete Logic value used to witness the tier-monotonicity theorem. -/
def demoLogic : Logic := Logic.new (some fun _ => true) none none none none

theorem logic_can_access_tier_monotone_witness :
    LogicMode.Normal.tierIdx ≤ LogicMode.Hard.tierIdx
    ∧ demoLogic.can_access LogicMode.Normal Progress.new = true
    ∧ demoLogic.can_access LogicMode.Hard Progress.new = true :=
  ⟨by decide, rfl,
    logic_can_access_tier_monotone demoLogic Progress.new LogicMode.Normal
      LogicMode.Hard (by decide) rfl⟩

lemma CheckMap.get_insert (k : String) (v : Item) (m : CheckMap) :
    CheckMap.get k (CheckMap.insert k v m) = some v := by
  induction m with
  | nil => simp [CheckMap.insert, CheckMap.get]
  | cons hd tl ih =>
      obtain ⟨k', v'⟩ := hd
      by_cases h : k = k'
      · simp [CheckMap.insert, CheckMap.get, h]
      · simp [CheckMap.insert, CheckMap.get, h, ih]

lemma World.get_setIn (region chk : String) (item : Item) (w : World) :
    ∃ m : CheckMap,
      World.get region (World.setIn region chk item w)
        = some (CheckMap.insert chk item m) := by
  induction w with
  | nil => exact ⟨[], by simp [World.setIn, World.get]⟩
  | cons hd tl ih =>
      obtain ⟨r, m⟩ := hd
      by_cases h : region = r
      · exact ⟨m, by simp [World.setIn, World.get, h]⟩
      · obtain ⟨m', hm'⟩ := ih
        exact ⟨m', by simp [World.setIn, World.get, h, hm']⟩

/-- The Lost Woods pedestal check (regions/hyrule/lost.rs: region name
"Lost Woods", world Hyrule, node id "woods", check "Pedestal"), used as the
concrete check of scenario S4. -/
def pedestalCheck : LocationInfo :=
  ⟨⟨"Lost Woods", regions.World.Hyrule, "woods"⟩, "Pedestal"⟩

/-- C3: setting an item at a location and then getting that location yields
the normalised item; in particular setting ItemSwordLv4 and getting back
yields ItemSwordLv2. -/
theorem layout_set_then_get :
    ∀ (layout : Layout) (l : LocationInfo) (i : Item),
      (layout.set l i).get l = some i.normalize
    ∧ (Layout.default.set pedestalCheck Item.ItemSwordLv4).get pedestalCheck
        = some Item.ItemSwordLv2 := by
  intro layout l i
  constructor
  · obtain ⟨⟨rname, rworld, rid⟩, chk⟩ := l
    cases rworld
    all_goals
      simp only [Layout.set, Layout.get, Layout.world]
      obtain ⟨m, hm⟩ := World.get_setIn rname chk i.normalize _
      rw [hm]
      simp [CheckMap.get_insert]
  · decide

/-- C4: the item normalisation function is idempotent. -/
theorem item_normalize_idempotent :
    ∀ x : Item, x.normalize.normalize = x.normalize := by
  intro x
  cases x <;> rfl

/-- C5: can_defeat_margomill holds iff a tornado rod token is present
together with a sword, bow, bombs, fire rod or hammer token; it holds on
exactly TornadoRod01 and Sword01, and fails on TornadoRod01 alone. -/
theorem progress_can_defeat_margomill_characterisation :
    ∀ p : Progress,
      (p.can_defeat_margomill = true ↔
        ((TornadoRod01 ∈ p.items ∨ TornadoRod02 ∈ p.items) ∧
          ((Sword01 ∈ p.items ∨ Sword02 ∈ p.items ∨ Sword03 ∈ p.items
              ∨ Sword04 ∈ p.items)
            ∨ (Bow01 ∈ p.items ∨ Bow02 ∈ p.items)
            ∨ (Bombs01 ∈ p.items ∨ Bombs02 ∈ p.items)
            ∨ (FireRod01 ∈ p.items ∨ FireRod02 ∈ p.items)
            ∨ (Hammer01 ∈ p.items ∨ Hammer02 ∈ p.items))))
      ∧ (Progress.mk {TornadoRod01, Sword01}).can_defeat_margomill = true
      ∧ (Progress.mk {TornadoRod01}).can_defeat_margomill = false := by
  intro p
  refine ⟨?_, by decide, by decide⟩
  simp [Progress.can_defeat_margomill, Progress.has_tornado_rod,
    Progress.has_sword, Progress.has_bow, Progress.has_bombs,
    Progress.has_fire_rod, Progress.has_hammer, Progress.has_either,
    Progress.has_any, Progress.has, List.any_eq_true]
  tauto

/-- The reading of has_amount used by the claim: the number of DISTINCT
tokens of the list that are members of the progress set. -/
def distinctMemberCount (p : Progress) (items : List FillerItem) : Nat :=
  (items.dedup.filter fun i => p.has i).length

/-- C6 counterexample: on a list with a duplicated token, has_amount counts
with multiplicity, not over distinct tokens: with P = set with Sword01,
has_amount(2, list of Sword01 twice) is true although only one distinct
token of the list is a member of P. -/
theorem progress_has_amount_distinct_counterexample :
    (Progress.mk {Sword01}).has_amount 2 [Sword01, Sword01] = true
    ∧ distinctMemberCount (Progress.mk {Sword01}) [Sword01, Sword01] = 1 := by
  constructor
  · decide
  · decide

lemma Progress.count_foldl (p : Progress) (items : List FillerItem) :
    ∀ acc : Nat, acc < 256 →
      List.foldl (fun sum item => if p.has item then (sum + 1) % 256 else sum)
          acc items
        = (acc + items.countP (fun i => p.has i)) % 256 := by
  induction items with
  | nil =>
      intro acc hacc
      simp [Nat.mod_eq_of_lt hacc]
  | cons hd tl ih =>
      intro acc hacc
      simp only [List.foldl, List.countP_cons]
      by_cases h : p.has hd = true
      · rw [if_pos h, if_pos h, ih ((acc + 1) % 256) (Nat.mod_lt _ (by omega)),
          Nat.mod_add_mod]
        congr 1
        omega
      · rw [if_neg h, if_neg h, ih acc hacc, Nat.add_zero]

lemma Progress.count_eq_countP (p : Progress) (items : List FillerItem)
    (h : items.countP (fun i => p.has i) ≤ 255) :
    p.count items = items.countP (fun i => p.has i) := by
  unfold Progress.count
  rw [Progress.count_foldl p items 0 (by omega)]
  omega

/-- C6 amended: has_amount(n, ts) is true iff the number of entries of ts,
counted WITH multiplicity, that are members of P is at least n — provided
that count stays within the u8 range (at most 255), which holds for every
list the source passes; consequently has_master_sword is true iff at least
2 of the four (distinct) sword tokens are present. -/
theorem progress_has_amount_multiplicity :
    ∀ p : Progress,
      (∀ (amount : Nat) (items : List FillerItem),
        items.countP (fun i => p.has i) ≤ 255 →
        (p.has_amount amount items = true ↔
          amount ≤ items.countP (fun i => p.has i)))
      ∧ (p.has_master_sword = true ↔
          2 ≤ ([Sword01, Sword02, Sword03, Sword04].filter
                fun i => p.has i).length) := by
  intro p
  constructor
  · intro amount items h
    simp [Progress.has_amount, Progress.count_eq_countP p items h, ge_iff_le]
  · have h4 : ([Sword01, Sword02, Sword03, Sword04].countP
        (fun i => p.has i)) ≤ 255 := by
      have hle : List.countP (fun i => p.has i)
            [Sword01, Sword02, Sword03, Sword04]
          ≤ [Sword01, Sword02, Sword03, Sword04].length :=
        List.countP_le_length _
      simp only [List.length] at hle
      omega
    simp [Progress.has_master_sword, Progress.has_amount,
      Progress.count_eq_countP p _ h4, ge_iff_le, List.countP_eq_length_filter]

theorem progress_has_amount_multiplicity_witness :
    ([Sword01, Sword02, Sword03, Sword04].countP
        (fun i => (Progress.mk {Sword01, Sword02}).has i) ≤ 255)
    ∧ ((Progress.mk {Sword01, Sword02}).has_amount 2
          [Sword01, Sword02, Sword03, Sword04] = true ↔
        2 ≤ [Sword01, Sword02, Sword03, Sword04].countP
          (fun i => (Progress.mk {Sword01, Sword02}).has i)) :=
  ⟨by decide,
    (progress_has_amount_multiplicity (Progress.mk {Sword01, Sword02})).1 2
      [Sword01, Sword02, Sword03, Sword04] (by decide)⟩

/-- C7: the custom Subregion equality is structural over the triple
(world, region-name, node-id): it holds exactly when all three fields
match, i.e. exactly when the two values are equal. -/
theorem subregion_eq_structural :
    ∀ a b : Subregion,
      (Subregion.eq a b = true ↔
        (a.world = b.world ∧ a.name = b.name ∧ a.id = b.id))
      ∧ (Subregion.eq a b = true ↔ a = b) := by
  intro a b
  have h1 : Subregion.eq a b = true ↔
      (a.world = b.world ∧ a.name = b.name ∧ a.id = b.id) := by
    simp [Subregion.eq, Bool.and_eq_true, beq_iff_eq, and_assoc]
  refine ⟨h1, h1.trans ?_⟩
  obtain ⟨an, aw, ai⟩ := a
  obtain ⟨bn, bw, bi⟩ := b
  simp
  tauto

/-- C8 (refuting the claim on the sources): a Progress value is completely
determined by its items set — the struct in src/progress.rs has no further
field, in particular no reference to Settings, even though
Logic::can_access (src/logic.rs line 50) calls progress.get_settings(). -/
theorem progress_determined_by_items :
    ∀ p q : Progress, p.items = q.items → p = q := by
  intro p q h
  obtain ⟨pi⟩ := p
  obtain ⟨qi⟩ := q
  simpa using h

theorem progress_determined_by_items_witness :
    Progress.new.items = (Progress.mk ∅).items
    ∧ Progress.new = Progress.mk ∅ :=
  ⟨rfl, progress_determined_by_items Progress.new (Progress.mk ∅) rfl⟩

/-- C9: has_net returns exactly what has_lamp returns; both are true iff a
lamp token (Lamp01 or Lamp02) is present. -/
theorem progress_has_net_eq_has_lamp :
    ∀ p : Progress,
      p.has_net = p.has_lamp
      ∧ (p.has_net = true ↔ (Lamp01 ∈ p.items ∨ Lamp02 ∈ p.items)) := by
  intro p
  refine ⟨rfl, ?_⟩
  simp [Progress.has_net, Progress.has_either]

/-- C10: can_attack holds iff one of the fourteen attack tokens (swords,
bows, bombs, fire rods, ice rods, hammers) is present; a progress holding
only boomerang, hookshot and lamp tokens (the net query also reads the lamp
tokens) does not satisfy it. -/
theorem progress_can_attack_characterisation :
    ∀ p : Progress,
      (p.can_attack = true ↔
        (Sword01 ∈ p.items ∨ Sword02 ∈ p.items ∨ Sword03 ∈ p.items
          ∨ Sword04 ∈ p.items
          ∨ Bow01 ∈ p.items ∨ Bow02 ∈ p.items
          ∨ Bombs01 ∈ p.items ∨ Bombs02 ∈ p.items
          ∨ FireRod01 ∈ p.items ∨ FireRod02 ∈ p.items
          ∨ IceRod01 ∈ p.items ∨ IceRod02 ∈ p.items
          ∨ Hammer01 ∈ p.items ∨ Hammer02 ∈ p.items))
      ∧ (Progress.mk {Boomerang01, Boomerang02, Hookshot01, Hookshot02,
          Lamp01, Lamp02}).can_attack = false := by
  intro p
  refine ⟨?_, by decide⟩
  simp [Progress.can_attack, Progress.has_any, Progress.has, List.any_eq_true]
